import Mathlib

/-!
Shallow embedding of the kraken-cryptoexchange-api client (src/index.ts).

JavaScript strings are modelled as Lean `String`s; where the source hands a
string to Node's `crypto`/`Buffer` machinery we convert to UTF-16 code units
(`JsStr`, a `List Nat`) and from there to byte lists, mirroring Node's
`utf8` and `latin1` encodings.  JavaScript objects used as post bodies are
insertion-ordered association lists (`JSObj`); a missing property reads as
`JSVal.undef`, matching JavaScript member access.  The SHA-256 and
HMAC-SHA-512 primitives live in Node's `crypto` module, outside this
repository, so they are abstract function parameters bundled in `Crypto`;
everything the repository itself does (encoding, concatenation, base64,
query-string canonicalisation, request assembly) is embedded concretely.
-/

/-- JavaScript runtime values that occur in post bodies. -/
inductive JSVal where
  | undef
  | vStr (s : String)
  | vNum (n : Int)
  | vBool (b : Bool)
deriving DecidableEq, Repr

/-- A JavaScript object: insertion-ordered string-keyed fields. -/
abbrev JSObj := List (String × JSVal)

/-- Property read `o[k]`: the first binding of `k`, or `undefined`. -/
def jsGet (o : JSObj) (k : String) : JSVal :=
  ((o.find? (fun kv => kv.1 == k)).map (fun kv => kv.2)).getD JSVal.undef

/-- Property write `o[k] = v`: overwrite in place, or append a new key. -/
def jsSet (o : JSObj) (k : String) (v : JSVal) : JSObj :=
  if o.any (fun kv => kv.1 == k) then
    o.map (fun kv => if kv.1 == k then (k, v) else kv)
  else
    o ++ [(k, v)]

/-- Object spread `{...a, ...b}`: keys of `a` (values overridden by `b`),
then keys of `b` new to `a`, in insertion order. -/
def objMerge (a b : JSObj) : JSObj :=
  (a.map (fun kv => if b.any (fun kv2 => kv2.1 == kv.1) then (kv.1, jsGet b kv.1) else kv))
    ++ b.filter (fun kv2 => !(a.any (fun kv => kv.1 == kv2.1)))

/-- JavaScript `String(v)`, as used by string concatenation and `qs`. -/
def jsValToString : JSVal → String
  | JSVal.undef => "undefined"
  | JSVal.vStr s => s
  | JSVal.vNum n => toString n
  | JSVal.vBool b => if b then "true" else "false"

/-- A JavaScript string as its UTF-16 code units (faithful for strings of
basic-plane characters, which covers every string this client builds). -/
abbrev JsStr := List Nat

/-- View a Lean string as a JavaScript string (code-unit list). -/
def jsOfString (s : String) : JsStr := s.data.map Char.toNat

/-- UTF-8 encoding of one basic-plane code unit, per Node's `utf8` encoding. -/
def utf8OfUnit (n : Nat) : List Nat :=
  if n < 128 then [n]
  else if n < 2048 then [192 + n / 64, 128 + n % 64]
  else [224 + n / 4096, 128 + (n / 64) % 64, 128 + n % 64]

/-- Bytes of a JavaScript string under Node's `utf8` encoding. -/
def utf8BytesOfJs : JsStr → List Nat
  | [] => []
  | u :: rest => utf8OfUnit u ++ utf8BytesOfJs rest

/-- Bytes of a JavaScript string under Node's `latin1` encoding: each code
unit is truncated to its low byte. -/
def latin1BytesOfJs (u : JsStr) : List Nat := u.map (fun x => x % 256)

/-- True for characters the `qs` encoder (default RFC 3986 format) leaves
unescaped: alphanumerics and `- . _ ~`. -/
def isUnreservedChar (c : Char) : Bool :=
  let n := c.toNat
  (65 ≤ n && n ≤ 90) || (97 ≤ n && n ≤ 122) || (48 ≤ n && n ≤ 57) ||
    n == 45 || n == 46 || n == 95 || n == 126

/-- Uppercase hexadecimal digit. -/
def hexDigitChar (n : Nat) : Char :=
  if n < 10 then Char.ofNat (48 + n) else Char.ofNat (55 + n)

/-- Percent-encoding `%XX` of one byte. -/
def percentEncodeByte (b : Nat) : List Char :=
  [Char.ofNat 37, hexDigitChar (b / 16), hexDigitChar (b % 16)]

/-- One character of `encodeURIComponent` output. -/
def urlEncodeChar (c : Char) : List Char :=
  if isUnreservedChar c then [c]
  else (utf8OfUnit c.toNat).foldr (fun b acc => percentEncodeByte b ++ acc) []

/-- Model of the `qs` / `encodeURIComponent` escaping of keys and values. -/
def urlEncode (s : String) : String :=
  String.mk (s.data.foldr (fun c acc => urlEncodeChar c ++ acc) [])

/-- Model of `qs.stringify` on a flat object: fields with `undefined`
values are skipped, keys and stringified values are percent-encoded and
joined as `k=v` pairs with `&`, in insertion order. -/
def qsStringify (body : JSObj) : String :=
  String.intercalate "&"
    ((body.filter (fun kv => match kv.2 with | JSVal.undef => false | _ => true)).map
      (fun kv => urlEncode kv.1 ++ "=" ++ urlEncode (jsValToString kv.2)))

/-- Standard base64 alphabet. -/
def b64Alphabet : List Char :=
  "ABCDEFGHIJKLMNOPQRSTUVWXYZabcdefghijklmnopqrstuvwxyz0123456789+/".data

/-- Alphabet character of a sextet (out-of-range values clamp to the default,
which never arises for real sextets). -/
def b64CharOf (n : Nat) : Char := b64Alphabet.getD n (Char.ofNat 65)

/-- Position scan used to invert the alphabet. -/
def b64IndexAux : List Char → Nat → Char → Option Nat
  | [], _, _ => none
  | a :: rest, i, c => if a == c then some i else b64IndexAux rest (i + 1) c

/-- Sextet value of an alphabet character, `none` for any other character. -/
def b64Index (c : Char) : Option Nat := b64IndexAux b64Alphabet 0 c

/-- Node's decode table: the standard alphabet, plus the URL and Filename
Safe Alphabet the Buffer documentation says base64 decoding also accepts
(`-` as sextet 62, `_` as sextet 63). -/
def nodeB64Index (c : Char) : Option Nat :=
  if c == Char.ofNat 45 then some 62
  else if c == Char.ofNat 95 then some 63
  else b64Index c

/-- Base64 encoding of a byte list as characters, with `=` padding. -/
def b64EncodeChars : List Nat → List Char
  | b1 :: b2 :: b3 :: rest =>
      b64CharOf (b1 / 4) :: b64CharOf ((b1 % 4) * 16 + b2 / 16) ::
        b64CharOf ((b2 % 16) * 4 + b3 / 64) :: b64CharOf (b3 % 64) ::
          b64EncodeChars rest
  | [b1, b2] => [b64CharOf (b1 / 4), b64CharOf ((b1 % 4) * 16 + b2 / 16),
                 b64CharOf ((b2 % 16) * 4), Char.ofNat 61]
  | [b1] => [b64CharOf (b1 / 4), b64CharOf ((b1 % 4) * 16), Char.ofNat 61, Char.ofNat 61]
  | [] => []

/-- Model of `digest('base64')`: base64 string of a byte list. -/
def base64Encode (bs : List Nat) : String := String.mk (b64EncodeChars bs)

/-- Byte reconstruction from a sextet stream (groups of four, with the
trailing partial group contributing one or two bytes). -/
def b64DecodeSextets : List Nat → List Nat
  | a :: b :: c :: d :: rest =>
      (a * 4 + b / 16) :: ((b % 16) * 16 + c / 4) :: ((c % 4) * 64 + d) ::
        b64DecodeSextets rest
  | [a, b, c] => [a * 4 + b / 16, (b % 16) * 16 + c / 4]
  | [a, b] => [a * 4 + b / 16]
  | _ => []

/-- Model of Node's `Buffer.from(s, 'base64')` (the source's
`new Buffer(privateKey, 'base64')`): a lenient decoder that never fails —
it stops at the first `=`, accepts the URL-safe alphabet (`-`, `_`)
alongside the standard one, silently skips any other character outside the
alphabet, and decodes whatever sextets remain. -/
def nodeBase64Decode (s : String) : List Nat :=
  b64DecodeSextets
    ((s.data.takeWhile (fun c => !(c == Char.ofNat 61))).filterMap nodeB64Index)

/-- Strict base64 well-formedness, per the specification's notion of a
valid base64 string: length a multiple of four, at most two trailing `=`
padding characters, and alphabet characters elsewhere. -/
def isValidBase64 (s : String) : Bool :=
  let l := s.data
  let padCount := (l.reverse.takeWhile (fun c => c == Char.ofNat 61)).length
  let body := l.take (l.length - padCount)
  decide (l.length % 4 = 0) && decide (padCount ≤ 2) &&
    body.all (fun c => b64Alphabet.contains c)

/-- Cryptographic primitives from Node's `crypto` module, abstract here:
`sha256` maps a byte list to its digest bytes, `hmacSha512 key msg` maps a
key and message to the MAC bytes. -/
structure Crypto where
  sha256 : List Nat → List Nat
  hmacSha512 : List Nat → List Nat → List Nat

/-- Embedding of `signMessage` (src/index.ts:73-86).  `message` is
`qs.stringify(postBody)`; the key is leniently base64-decoded; the hash
input is the JavaScript string `postBody.nonce + message` (number-string
concatenation) under the default `utf8` encoding; the digest is taken as a
`latin1` string, concatenated onto `path`, re-encoded as `latin1` bytes
for the HMAC, whose digest is returned base64-encoded. -/
def signMessage (c : Crypto) (path : String) (postBody : JSObj) (privateKey : String) : String :=
  let message := qsStringify postBody
  let decryptedKey := nodeBase64Decode privateKey
  let hashDigest : JsStr :=
    c.sha256 (utf8BytesOfJs (jsOfString (jsValToString (jsGet postBody "nonce") ++ message)))
  base64Encode (c.hmacSha512 decryptedKey (latin1BytesOfJs (jsOfString path ++ hashDigest)))

/-- Specification-side signature formula, stated from the claim's words:
base64 of HMAC-SHA512 with the base64-decoded key over the bytes of the
path concatenated with the raw SHA-256 digest of the nonce's decimal
string concatenated with the URL-encoded query string of the body. -/
def signSpec (c : Crypto) (path : String) (body : JSObj) (privateKeyBase64 : String)
    (nonce : Int) : String :=
  base64Encode (c.hmacSha512 (nodeBase64Decode privateKeyBase64)
    (utf8BytesOfJs (jsOfString path) ++
      c.sha256 (utf8BytesOfJs (jsOfString (toString nonce)) ++
        utf8BytesOfJs (jsOfString (qsStringify body)))))

/-- Embedding of `generateNonce` (src/index.ts:94): `Date.now() * 1000`,
with the wall-clock reading passed explicitly. -/
def generateNonce (now : Int) : Int := now * 1000

/-- Credentials container (src/index.ts `IApiAuth`). -/
structure IApiAuth where
  publicKey : String
  privateKey : String
deriving DecidableEq

/-- Agent state: the optional `auth` field of the raw agent. -/
structure AgentState where
  auth : Option IApiAuth
deriving DecidableEq

/-- Embedding of `isUpgraded` (src/index.ts:164): truthiness of `this.auth`. -/
def isUpgraded (s : AgentState) : Bool := s.auth.isSome

/-- Embedding of `upgrade` (src/index.ts:211): `this.auth = newAuth`. -/
def upgrade (s : AgentState) (newAuth : IApiAuth) : AgentState :=
  { s with auth := some newAuth }

/-- The process default configuration (src/index.ts:14-18). -/
structure DefaultConfig where
  rootUrl : String
  timeout : Nat
  version : Nat
deriving DecidableEq

def defaultConfig : DefaultConfig :=
  { rootUrl := "https://api.kraken.com", timeout := 15000, version := 0 }

/-- HTTP headers carried by a request configuration. -/
structure HttpHeaders where
  userAgent : String
  apiKey : Option String
  apiSign : Option String
deriving DecidableEq

/-- The axios-style request configuration handed to the transport. -/
structure AgentRequestConfig where
  baseURL : String
  headers : HttpHeaders
  method : String
  timeout : Nat
  url : String
  data : Option String
deriving DecidableEq

/-- Embedding of `defaultAgentConfig` (src/index.ts:23-30). -/
def defaultAgentConfig : AgentRequestConfig :=
  { baseURL := defaultConfig.rootUrl,
    headers := { userAgent := "Kraken API Client (kraken-cryptoexchange-api node package)",
                 apiKey := none, apiSign := none },
    method := "GET",
    timeout := defaultConfig.timeout,
    url := "",
    data := none }

/-- Embedding of `publicAgentConfig` (src/index.ts:37-39). -/
def publicAgentConfig : AgentRequestConfig := defaultAgentConfig

/-- Embedding of `privateAgentConfig` (src/index.ts:46-49). -/
def privateAgentConfig : AgentRequestConfig := { defaultAgentConfig with method := "POST" }

/-- Per-call override fields of the process configuration
(`IKrakenRequestConfig` as the specification reads it). -/
structure IKrakenRequestConfig where
  rootUrl : Option String
  timeout : Option Nat
  version : Option Nat
deriving DecidableEq

/-- Shallow merge `{ ...defaultConfig, ...configOverride }`. -/
def mergeConfig (d : DefaultConfig) (ov : Option IKrakenRequestConfig) : DefaultConfig :=
  match ov with
  | none => d
  | some o =>
      { rootUrl := o.rootUrl.getD d.rootUrl,
        timeout := o.timeout.getD d.timeout,
        version := o.version.getD d.version }

/-- Embedding of `getPublicEndpoint` (src/index.ts:142-157): the function
is pure up to the transport call, so it returns the request configuration
dispatched through axios. -/
def getPublicEndpoint (endpoint : String) (queryParams : Option JSObj)
    (configOverride : Option IKrakenRequestConfig) : AgentRequestConfig :=
  let config := mergeConfig defaultConfig configOverride
  let uri := "/" ++ toString config.version ++ "/public/" ++ endpoint ++ "?"
               ++ qsStringify (queryParams.getD [])
  { publicAgentConfig with url := uri }

/-- Outcome of a private post: the settled result (the rejection string or
the dispatched request), every request configuration handed to the
transport, and the agent state afterwards. -/
structure PrivateOutcome where
  result : Except String AgentRequestConfig
  transportCalls : List AgentRequestConfig
  finalState : AgentState

/-- Embedding of `postToPrivateEndpoint` (src/index.ts:174-199).  Without
credentials it rejects with the source's literal string before touching
the transport; otherwise it merges the config, builds the private uri,
signs the caller's body as given, and dispatches exactly one request. -/
def postToPrivateEndpoint (c : Crypto) (s : AgentState) (endpoint : String) (data : JSObj)
    (configOverride : Option IKrakenRequestConfig) : PrivateOutcome :=
  match s.auth with
  | none =>
      { result := Except.error "api keys are required to access private endpoints",
        transportCalls := [], finalState := s }
  | some auth =>
      let config := mergeConfig defaultConfig configOverride
      let uri := "/" ++ toString config.version ++ "/private/" ++ endpoint
      let headers : HttpHeaders :=
        { userAgent := privateAgentConfig.headers.userAgent,
          apiKey := some auth.publicKey,
          apiSign := some (signMessage c uri data auth.privateKey) }
      let agentConfig :=
        { privateAgentConfig with headers := headers, url := uri,
                                  data := some (qsStringify data) }
      { result := Except.ok agentConfig, transportCalls := [agentConfig], finalState := s }

/-- A client method's request: which private endpoint it posts to and the
body it builds. -/
structure PrivateCall where
  endpoint : String
  body : JSObj
deriving DecidableEq

/-- Dispatch of a client method's result through the raw agent: a body
that threw while being built never reaches `postToPrivateEndpoint`. -/
def runPrivateCall (c : Crypto) (s : AgentState) (r : Except String PrivateCall) : PrivateOutcome :=
  match r with
  | Except.error e => { result := Except.error e, transportCalls := [], finalState := s }
  | Except.ok call => postToPrivateEndpoint c s call.endpoint call.body none

/-- Embedding of `getAccountBalance` (src/index.ts:419-424). -/
def getAccountBalance (now : Int) : PrivateCall :=
  { endpoint := "Balance", body := [("nonce", JSVal.vNum (generateNonce now))] }

/-- Embedding of `getTradeVolume` (src/index.ts:510-523).  With the
optional argument omitted, the assignment reads `queryParams['fee-info']`
off `undefined`, throwing a `TypeError` before any dispatch. -/
def getTradeVolume (now : Int) (queryParams : Option JSObj) : Except String PrivateCall :=
  let nonce := generateNonce now
  let params : JSObj :=
    match queryParams with
    | some q => [("nonce", JSVal.vNum nonce), ("pair", jsGet q "pair")]
    | none => [("nonce", JSVal.vNum nonce)]
  match queryParams with
  | none => Except.error "TypeError: cannot read properties of undefined"
  | some q => Except.ok { endpoint := "TradeVolume",
                          body := jsSet params "fee-info" (jsGet q "fee-info") }

/-- Embedding of `addStandardOrder` (src/index.ts:525-544).  Note the
source reads the bracketed close fields as `close[type]`, `close[price]`,
`close[price2]` from the caller's object. -/
def addStandardOrder (now : Int) (queryParams : JSObj) : PrivateCall :=
  let nonce := generateNonce now
  let required : JSObj :=
    [("nonce", JSVal.vNum nonce), ("pair", jsGet queryParams "pair"),
     ("type", jsGet queryParams "type"), ("ordertype", jsGet queryParams "ordertype")]
  let optional : JSObj :=
    [("price", jsGet queryParams "price"), ("price2", jsGet queryParams "price2"),
     ("volume", jsGet queryParams "volume"), ("leverage", jsGet queryParams "leverage"),
     ("oflags", jsGet queryParams "oflags"), ("starttm", jsGet queryParams "starttm"),
     ("expiretm", jsGet queryParams "expiretm"), ("userref", jsGet queryParams "userref"),
     ("validate", jsGet queryParams "validate")]
  let optionalClose : JSObj :=
    [("close[type]", jsGet queryParams "close[type]"),
     ("close[price]", jsGet queryParams "close[price]"),
     ("close[price2]", jsGet queryParams "close[price2]")]
  { endpoint := "AddOrder", body := objMerge (objMerge required optional) optionalClose }

/-- Embedding of `getStatusOfRecentDeposits` (src/index.ts:575-581). -/
def getStatusOfRecentDeposits (now : Int) (queryParams : JSObj) : PrivateCall :=
  { endpoint := "DepositMethods",
    body := [("nonce", JSVal.vNum (generateNonce now)),
             ("aclass", jsGet queryParams "aclass"), ("asset", jsGet queryParams "asset")] }

/-- Embedding of `getWithdrawalInformation` (src/index.ts:583-589). -/
def getWithdrawalInformation (now : Int) (queryParams : JSObj) : PrivateCall :=
  { endpoint := "DepositMethods",
    body := [("nonce", JSVal.vNum (generateNonce now)),
             ("aclass", jsGet queryParams "aclass"), ("asset", jsGet queryParams "asset")] }

/-- Embedding of `withdrawFunds` (src/index.ts:591-597). -/
def withdrawFunds (now : Int) (queryParams : JSObj) : PrivateCall :=
  { endpoint := "DepositMethods",
    body := [("nonce", JSVal.vNum (generateNonce now)),
             ("aclass", jsGet queryParams "aclass"), ("asset", jsGet queryParams "asset")] }

/-- Embedding of `getStatusOfRecentWithdrawals` (src/index.ts:599-605). -/
def getStatusOfRecentWithdrawals (now : Int) (queryParams : JSObj) : PrivateCall :=
  { endpoint := "DepositMethods",
    body := [("nonce", JSVal.vNum (generateNonce now)),
             ("aclass", jsGet queryParams "aclass"), ("asset", jsGet queryParams "asset")] }

/-- Embedding of `requestWithdrawalCancellation` (src/index.ts:607-613). -/
def requestWithdrawalCancellation (now : Int) (queryParams : JSObj) : PrivateCall :=
  { endpoint := "DepositMethods",
    body := [("nonce", JSVal.vNum (generateNonce now)),
             ("aclass", jsGet queryParams "aclass"), ("asset", jsGet queryParams "asset")] }

/-- Concrete crypto instance for witnesses and counterexamples: any pair
of functions instantiates the abstract primitives. -/
def cW : Crypto :=
  { sha256 := fun l => [l.length % 256], hmacSha512 := fun k m => k ++ m }

/-- Caller parameters for the `addStandardOrder` counterexample, with the
bracketed close fields the interface declares. -/
def addOrderEx : JSObj :=
  [("pair", JSVal.vStr "XBTUSD"), ("type", JSVal.vStr "buy"),
   ("ordertype", JSVal.vStr "limit"), ("volume", JSVal.vNum 1),
   ("close[ordertype]", JSVal.vStr "limit"), ("close[price]", JSVal.vNum 5),
   ("close[price2]", JSVal.vNum 6)]

/-- Concrete per-call override used against claim C6. -/
def ovEx : IKrakenRequestConfig :=
  { rootUrl := some "https://example.com", timeout := some 99, version := some 2 }

/-- Concrete string that is not valid base64. -/
def badKey : String := "%%%not-base64%%%"

/-! ## Helper lemmas -/

theorem jsOfString_append (a b : String) :
    jsOfString (a ++ b) = jsOfString a ++ jsOfString b := by
  cases a with
  | mk la =>
    cases b with
    | mk lb =>
      simp [jsOfString, String.append]

theorem utf8BytesOfJs_append (a b : JsStr) :
    utf8BytesOfJs (a ++ b) = utf8BytesOfJs a ++ utf8BytesOfJs b := by
  induction a with
  | nil => rfl
  | cons u rest ih => simp [utf8BytesOfJs, ih]

theorem utf8BytesOfJs_ascii (u : JsStr) (h : ∀ x ∈ u, x < 128) : utf8BytesOfJs u = u := by
  induction u with
  | nil => rfl
  | cons x rest ih =>
    have hx : x < 128 := h x (by simp)
    simp [utf8BytesOfJs, utf8OfUnit, hx, ih (fun y hy => h y (by simp [hy]))]

theorem latin1BytesOfJs_of_lt (u : JsStr) (h : ∀ x ∈ u, x < 256) : latin1BytesOfJs u = u := by
  induction u with
  | nil => rfl
  | cons x rest ih =>
    have hx : x < 256 := h x (by simp)
    simp [latin1BytesOfJs] at ih
    simp [latin1BytesOfJs, Nat.mod_eq_of_lt hx, ih (fun y hy => h y (by simp [hy]))]

theorem jsOfString_ascii_lt (path : String) (hp : ∀ ch ∈ path.data, ch.toNat < 128) :
    ∀ x ∈ jsOfString path, x < 128 := by
  intro x hx
  simp only [jsOfString, List.mem_map] at hx
  obtain ⟨ch, hch, rfl⟩ := hx
  exact hp ch hch

theorem b64IndexAux_lt (l : List Char) (i : Nat) (ch : Char) (n : Nat)
    (h : b64IndexAux l i ch = some n) : n < i + l.length := by
  induction l generalizing i with
  | nil => simp [b64IndexAux] at h
  | cons a rest ih =>
    simp only [b64IndexAux] at h
    split at h
    · cases h
      simp only [List.length_cons]
      omega
    · have h2 := ih (i + 1) h
      simp only [List.length_cons]
      omega

theorem b64Index_lt (ch : Char) (n : Nat) (h : b64Index ch = some n) : n < 64 := by
  have h2 := b64IndexAux_lt b64Alphabet 0 ch n h
  have hl : b64Alphabet.length = 64 := rfl
  omega

theorem b64DecodeSextets_lt : ∀ l : List Nat, (∀ x ∈ l, x < 64) →
    ∀ b ∈ b64DecodeSextets l, b < 256
  | a :: b :: c :: d :: rest => fun h x hx => by
      have ha : a < 64 := h a (by simp)
      have hb : b < 64 := h b (by simp)
      have hc : c < 64 := h c (by simp)
      have hd : d < 64 := h d (by simp)
      simp only [b64DecodeSextets, List.mem_cons] at hx
      rcases hx with rfl | rfl | rfl | hx
      · omega
      · omega
      · omega
      · exact b64DecodeSextets_lt rest (fun y hy => h y (by simp [hy])) x hx
  | [a, b, c] => fun h x hx => by
      have ha : a < 64 := h a (by simp)
      have hb : b < 64 := h b (by simp)
      have hc : c < 64 := h c (by simp)
      simp only [b64DecodeSextets, List.mem_cons, List.not_mem_nil, or_false] at hx
      rcases hx with rfl | rfl
      · omega
      · omega
  | [a, b] => fun h x hx => by
      have ha : a < 64 := h a (by simp)
      have hb : b < 64 := h b (by simp)
      simp only [b64DecodeSextets, List.mem_cons, List.not_mem_nil, or_false] at hx
      rcases hx with rfl
      omega
  | [] => fun h x hx => by simp [b64DecodeSextets] at hx
  | [a] => fun h x hx => by simp [b64DecodeSextets] at hx

theorem b64Index_b64CharOf : ∀ n : Nat, n < 64 → b64Index (b64CharOf n) = some n := by decide

theorem b64Index_pad : b64Index (Char.ofNat 61) = none := by decide

theorem nodeB64Index_b64CharOf : ∀ n : Nat, n < 64 → nodeB64Index (b64CharOf n) = some n := by
  decide

theorem nodeB64Index_lt (ch : Char) (n : Nat) (h : nodeB64Index ch = some n) : n < 64 := by
  unfold nodeB64Index at h
  split at h
  · cases h
    omega
  · split at h
    · cases h
      omega
    · exact b64Index_lt ch n h

theorem b64CharOf_small_ne_pad : ∀ n : Nat, n < 64 → (b64CharOf n == Char.ofNat 61) = false := by
  decide

theorem b64CharOf_ne_pad (n : Nat) : (b64CharOf n == Char.ofNat 61) = false := by
  by_cases h : n < 64
  · exact b64CharOf_small_ne_pad n h
  · have hlen : b64Alphabet.length = 64 := rfl
    unfold b64CharOf
    rw [List.getD_eq_getElem?_getD, List.getElem?_eq_none (by omega)]
    decide

theorem filterMap_cons_some {α β : Type} (f : α → Option β) (a : α) (l : List α) (b : β)
    (hfa : f a = some b) : List.filterMap f (a :: l) = b :: List.filterMap f l := by
  simp [List.filterMap_cons, hfa]

theorem filterMap_cons_none {α β : Type} (f : α → Option β) (a : α) (l : List α)
    (hfa : f a = none) : List.filterMap f (a :: l) = List.filterMap f l := by
  simp [List.filterMap_cons, hfa]

theorem b64_encode_decode : ∀ bs : List Nat, (∀ b ∈ bs, b < 256) →
    b64DecodeSextets (((b64EncodeChars bs).takeWhile
      (fun c => !(c == Char.ofNat 61))).filterMap nodeB64Index) = bs
  | b1 :: b2 :: b3 :: rest => fun h => by
      have hb1 : b1 < 256 := h b1 (by simp)
      have hb2 : b2 < 256 := h b2 (by simp)
      have hb3 : b3 < 256 := h b3 (by simp)
      have ih := b64_encode_decode rest (fun y hy => h y (by simp [hy]))
      simp only [b64EncodeChars]
      rw [List.takeWhile_cons_of_pos (by simp [b64CharOf_ne_pad]),
          List.takeWhile_cons_of_pos (by simp [b64CharOf_ne_pad]),
          List.takeWhile_cons_of_pos (by simp [b64CharOf_ne_pad]),
          List.takeWhile_cons_of_pos (by simp [b64CharOf_ne_pad])]
      rw [filterMap_cons_some _ _ _ _ (nodeB64Index_b64CharOf _ (by omega)),
          filterMap_cons_some _ _ _ _ (nodeB64Index_b64CharOf _ (by omega)),
          filterMap_cons_some _ _ _ _ (nodeB64Index_b64CharOf _ (by omega)),
          filterMap_cons_some _ _ _ _ (nodeB64Index_b64CharOf _ (by omega))]
      simp only [b64DecodeSextets, ih, List.cons.injEq]
      refine ⟨by omega, by omega, by omega, trivial⟩
  | [b1, b2] => fun h => by
      have hb1 : b1 < 256 := h b1 (by simp)
      have hb2 : b2 < 256 := h b2 (by simp)
      simp only [b64EncodeChars]
      rw [List.takeWhile_cons_of_pos (by simp [b64CharOf_ne_pad]),
          List.takeWhile_cons_of_pos (by simp [b64CharOf_ne_pad]),
          List.takeWhile_cons_of_pos (by simp [b64CharOf_ne_pad]),
          List.takeWhile_cons_of_neg (by decide)]
      rw [filterMap_cons_some _ _ _ _ (nodeB64Index_b64CharOf _ (by omega)),
          filterMap_cons_some _ _ _ _ (nodeB64Index_b64CharOf _ (by omega)),
          filterMap_cons_some _ _ _ _ (nodeB64Index_b64CharOf _ (by omega))]
      simp only [List.filterMap_nil, b64DecodeSextets, List.cons.injEq]
      refine ⟨by omega, by omega, trivial⟩
  | [b1] => fun h => by
      have hb1 : b1 < 256 := h b1 (by simp)
      simp only [b64EncodeChars]
      rw [List.takeWhile_cons_of_pos (by simp [b64CharOf_ne_pad]),
          List.takeWhile_cons_of_pos (by simp [b64CharOf_ne_pad]),
          List.takeWhile_cons_of_neg (by decide)]
      rw [filterMap_cons_some _ _ _ _ (nodeB64Index_b64CharOf _ (by omega)),
          filterMap_cons_some _ _ _ _ (nodeB64Index_b64CharOf _ (by omega))]
      simp only [List.filterMap_nil, b64DecodeSextets, List.cons.injEq]
      refine ⟨by omega, trivial⟩
  | [] => fun h => rfl

theorem nodeBase64Decode_encode (bs : List Nat) (h : ∀ b ∈ bs, b < 256) :
    nodeBase64Decode (base64Encode bs) = bs := by
  unfold nodeBase64Decode base64Encode
  exact b64_encode_decode bs h

theorem nodeBase64Decode_lt (s : String) : ∀ b ∈ nodeBase64Decode s, b < 256 := by
  intro b hb
  unfold nodeBase64Decode at hb
  refine b64DecodeSextets_lt _ ?_ b hb
  intro x hx
  rw [List.mem_filterMap] at hx
  obtain ⟨ch, _, hch⟩ := hx
  exact nodeB64Index_lt ch x hch

/-! ## Claim theorems -/

/-- C1: for every path, body and base64-encoded private key, `signMessage`
returns the base64 encoding of HMAC-SHA512 keyed by the base64-decoded
private key over the bytes of the path concatenated with the raw (non-hex)
SHA-256 digest of the nonce rendered as a decimal string concatenated with
the URL-encoded query string of the body.  Stated for well-formed digest
primitives (byte-valued output) and paths in the ASCII range, where the
source's `latin1` round-trip through a JavaScript string is byte-exact. -/
theorem signMessage_matches_spec (c : Crypto) (path : String) (body : JSObj) (key : String)
    (n : Int) (hsha : ∀ x : List Nat, ∀ b ∈ c.sha256 x, b < 256)
    (hpath : ∀ ch ∈ path.data, ch.toNat < 128)
    (hnonce : jsGet body "nonce" = JSVal.vNum n) :
    signMessage c path body key = signSpec c path body key n := by
  have hpath2 : ∀ x ∈ jsOfString path, x < 128 := jsOfString_ascii_lt path hpath
  simp only [signMessage, signSpec, hnonce, jsValToString]
  rw [jsOfString_append, utf8BytesOfJs_append]
  have hD := hsha (utf8BytesOfJs (jsOfString (toString n)) ++
    utf8BytesOfJs (jsOfString (qsStringify body)))
  have e1 : latin1BytesOfJs (jsOfString path ++
      c.sha256 (utf8BytesOfJs (jsOfString (toString n)) ++
        utf8BytesOfJs (jsOfString (qsStringify body)))) =
      jsOfString path ++
      c.sha256 (utf8BytesOfJs (jsOfString (toString n)) ++
        utf8BytesOfJs (jsOfString (qsStringify body))) := by
    refine latin1BytesOfJs_of_lt _ ?_
    intro x hx
    rcases List.mem_append.mp hx with h1 | h2
    · exact Nat.lt_trans (hpath2 x h1) (by omega)
    · exact hD x h2
  rw [e1, utf8BytesOfJs_ascii _ hpath2]

/-- Witness for C1 at a concrete crypto instance, path, body and key. -/
theorem signMessage_matches_spec_witness :
    signMessage cW "/0/private/Balance" [("nonce", JSVal.vNum 1616492376594000)]
        "cHJpdmF0ZWtleQ==" =
      signSpec cW "/0/private/Balance" [("nonce", JSVal.vNum 1616492376594000)]
        "cHJpdmF0ZWtleQ==" 1616492376594000 := by
  refine signMessage_matches_spec cW "/0/private/Balance"
    [("nonce", JSVal.vNum 1616492376594000)] "cHJpdmF0ZWtleQ==" 1616492376594000 ?_ ?_ ?_
  · intro x b hb
    simp [cW] at hb
    subst hb
    exact Nat.mod_lt _ (by omega)
  · decide
  · rfl

/-- C2 (code bug): `generateNonce` is `Date.now() * 1000`, so two calls in
the same millisecond tick return the same value — the later call is not
strictly greater, contradicting the required strict monotonicity. -/
theorem generateNonce_same_tick_collision :
    generateNonce 1700000000000 = 1700000000000000 ∧
    ¬ generateNonce 1700000000000 < generateNonce 1700000000000 := by
  refine ⟨by decide, ?_⟩
  exact lt_irrefl _

/-- C3: on an agent without credentials (`isUpgraded` false), every
`postToPrivateEndpoint` call rejects with the source's authentication
error, makes zero transport calls, and leaves the state unchanged. -/
theorem postToPrivateEndpoint_auth_gate (c : Crypto) (s : AgentState) (endpoint : String)
    (data : JSObj) (ov : Option IKrakenRequestConfig) (h : isUpgraded s = false) :
    postToPrivateEndpoint c s endpoint data ov =
      { result := Except.error "api keys are required to access private endpoints",
        transportCalls := [], finalState := s } := by
  cases s with
  | mk auth =>
    cases auth with
    | none => rfl
    | some a => simp [isUpgraded] at h

/-- Witness for C3 on the concrete unauthenticated agent. -/
theorem postToPrivateEndpoint_auth_gate_witness :
    isUpgraded { auth := none } = false ∧
    postToPrivateEndpoint cW { auth := none } "Balance" [("nonce", JSVal.vNum 1)] none =
      { result := Except.error "api keys are required to access private endpoints",
        transportCalls := [], finalState := { auth := none } } :=
  ⟨rfl, postToPrivateEndpoint_auth_gate cW { auth := none } "Balance"
    [("nonce", JSVal.vNum 1)] none rfl⟩

/-- C4 (counterexample): `postToPrivateEndpoint` transmits the
caller-supplied body verbatim — with a caller-supplied `nonce` of `42`
(not a value `generateNonce` can produce, which are multiples of 1000),
the transmitted body is exactly `nonce=42`; the agent injects nothing. -/
theorem caller_nonce_transmitted_counterexample :
    ((postToPrivateEndpoint cW
        { auth := some { publicKey := "pub", privateKey := "cHJpdmF0ZWtleQ==" } }
        "Balance" [("nonce", JSVal.vNum 42)] none).transportCalls.map
      (fun r => r.data)) = [some "nonce=42"] := by
  rfl

/-- C4 (amended): `postToPrivateEndpoint` transmits the supplied body
unchanged; fresh nonces are generated one level up, by the client's
per-endpoint methods — e.g. `getAccountBalance` builds its body with
`nonce = generateNonce()` and never copies a caller nonce. -/
theorem nonce_injected_by_client_methods (c : Crypto) (a : IApiAuth) (endpoint : String)
    (data : JSObj) (ov : Option IKrakenRequestConfig) (now : Int) :
    ((postToPrivateEndpoint c { auth := some a } endpoint data ov).transportCalls.map
        (fun r => r.data)) = [some (qsStringify data)] ∧
    getAccountBalance now =
      { endpoint := "Balance", body := [("nonce", JSVal.vNum (generateNonce now))] } := by
  constructor
  · simp [postToPrivateEndpoint]
  · rfl

/-- C5 (counterexample): `signMessage` succeeds on a key that is not valid
base64, returning an ordinary signature string — no `InvalidKeyEncoding`
error exists in the code. -/
theorem invalid_base64_key_signed_counterexample :
    isValidBase64 badKey = false ∧
    signMessage cW "/0/private/Balance" [("nonce", JSVal.vNum 1)] badKey =
      "not+base6y8wL3ByaXZhdGUvQmFsYW5jZQg=" := by
  refine ⟨by decide, by decide⟩

/-- C5 (amended): key decoding is lenient and total — every key string,
valid base64 or not, is silently treated exactly like the canonical base64
re-encoding of the bytes Node's decoder extracts from it (URL-safe
characters accepted, decoding stopped at the first `=`, other invalid
characters skipped), and signing always succeeds. -/
theorem signMessage_lenient_key_decoding (c : Crypto) (path : String) (body : JSObj)
    (key : String) :
    signMessage c path body (base64Encode (nodeBase64Decode key)) =
      signMessage c path body key := by
  simp only [signMessage]
  rw [nodeBase64Decode_encode (nodeBase64Decode key) (nodeBase64Decode_lt key)]

/-- C6 (counterexample): with an override carrying rootUrl, timeout and
version, the dispatched request still uses the default baseURL and
timeout; only the overridden version reaches the request (in its path). -/
theorem config_override_ignored_counterexample :
    ovEx.rootUrl = some "https://example.com" ∧ ovEx.timeout = some 99 ∧
    (getPublicEndpoint "Time" none (some ovEx)).baseURL = "https://api.kraken.com" ∧
    (getPublicEndpoint "Time" none (some ovEx)).timeout = 15000 ∧
    (getPublicEndpoint "Time" none (some ovEx)).url = "/2/public/Time?" := by
  refine ⟨rfl, rfl, rfl, rfl, by decide⟩

/-- C6 (amended): the per-call override merges shallowly over the
defaults, but only the merged `version` affects the outgoing request (in
its path); the dispatched baseURL and timeout are always the process
defaults, for both the public and the private endpoint builders. -/
theorem config_override_version_only (endpoint : String) (qp : Option JSObj)
    (ov : Option IKrakenRequestConfig) (c : Crypto) (a : IApiAuth) (data : JSObj) :
    (getPublicEndpoint endpoint qp ov).baseURL = defaultConfig.rootUrl ∧
    (getPublicEndpoint endpoint qp ov).timeout = defaultConfig.timeout ∧
    (getPublicEndpoint endpoint qp ov).url =
      "/" ++ toString (mergeConfig defaultConfig ov).version ++ "/public/" ++ endpoint
        ++ "?" ++ qsStringify (qp.getD []) ∧
    ((postToPrivateEndpoint c { auth := some a } endpoint data ov).transportCalls.map
        (fun r => (r.baseURL, r.timeout, r.url))) =
      [(defaultConfig.rootUrl, defaultConfig.timeout,
        "/" ++ toString (mergeConfig defaultConfig ov).version ++ "/private/" ++ endpoint)] := by
  refine ⟨rfl, rfl, rfl, ?_⟩
  simp [postToPrivateEndpoint, privateAgentConfig, defaultAgentConfig]

/-- C7: `upgrade` replaces the stored credentials unconditionally with
exactly the new value, after which `isUpgraded` is true; upgrading twice
leaves exactly the second credentials. -/
theorem upgrade_replaces_credentials (s : AgentState) (c1 c2 : IApiAuth) :
    upgrade s c1 = { auth := some c1 } ∧
    isUpgraded (upgrade s c1) = true ∧
    upgrade (upgrade s c1) c2 = { auth := some c2 } :=
  ⟨rfl, rfl, rfl⟩

/-- C8 (code bug): `addStandardOrder` reads the close fields as
`close[type]`, `close[price]`, `close[price2]`, so a caller-supplied
`close[ordertype]` (the key its own interface declares) never reaches the
transmitted body, while `close[price]` and `close[price2]` do survive
under their literal bracketed keys. -/
theorem addStandardOrder_close_ordertype_dropped :
    jsGet addOrderEx "close[ordertype]" = JSVal.vStr "limit" ∧
    ((addStandardOrder 0 addOrderEx).body.map Prod.fst).contains "close[ordertype]" = false ∧
    jsGet (addStandardOrder 0 addOrderEx).body "close[price]" = JSVal.vNum 5 ∧
    jsGet (addStandardOrder 0 addOrderEx).body "close[price2]" = JSVal.vNum 6 ∧
    qsStringify (addStandardOrder 0 addOrderEx).body =
      "nonce=0&pair=XBTUSD&type=buy&ordertype=limit&volume=1&close%5Bprice%5D=5&close%5Bprice2%5D=6" := by
  refine ⟨by decide, by decide, by decide, by decide, by decide⟩

/-- C9: all five wrappers (`getStatusOfRecentDeposits`,
`getWithdrawalInformation`, `withdrawFunds`, `getStatusOfRecentWithdrawals`,
`requestWithdrawalCancellation`) post to the private endpoint
`DepositMethods` with a body whose fields are exactly `nonce`, `aclass`,
`asset`; in particular `withdrawFunds` never transmits `key` or `amount`. -/
theorem funding_methods_post_to_deposit_methods (now : Int) (qp : JSObj) :
    (getStatusOfRecentDeposits now qp).endpoint = "DepositMethods" ∧
    (getStatusOfRecentDeposits now qp).body.map Prod.fst = ["nonce", "aclass", "asset"] ∧
    (getWithdrawalInformation now qp).endpoint = "DepositMethods" ∧
    (getWithdrawalInformation now qp).body.map Prod.fst = ["nonce", "aclass", "asset"] ∧
    (withdrawFunds now qp).endpoint = "DepositMethods" ∧
    (withdrawFunds now qp).body.map Prod.fst = ["nonce", "aclass", "asset"] ∧
    (getStatusOfRecentWithdrawals now qp).endpoint = "DepositMethods" ∧
    (getStatusOfRecentWithdrawals now qp).body.map Prod.fst = ["nonce", "aclass", "asset"] ∧
    (requestWithdrawalCancellation now qp).endpoint = "DepositMethods" ∧
    (requestWithdrawalCancellation now qp).body.map Prod.fst = ["nonce", "aclass", "asset"] ∧
    ((withdrawFunds now qp).body.map Prod.fst).contains "key" = false ∧
    ((withdrawFunds now qp).body.map Prod.fst).contains "amount" = false :=
  ⟨rfl, rfl, rfl, rfl, rfl, rfl, rfl, rfl, rfl, rfl, rfl, rfl⟩

/-- C10: `getTradeVolume` with the optional parameter object omitted
throws while reading `fee-info` off `undefined`, so the call fails with an
error and the dispatcher performs zero transport calls. -/
theorem getTradeVolume_throws_without_params (now : Int) (c : Crypto) (s : AgentState) :
    getTradeVolume now none = Except.error "TypeError: cannot read properties of undefined" ∧
    (runPrivateCall c s (getTradeVolume now none)).transportCalls = [] ∧
    (runPrivateCall c s (getTradeVolume now none)).finalState = s ∧
    (runPrivateCall c s (getTradeVolume now none)).result =
      Except.error "TypeError: cannot read properties of undefined" :=
  ⟨rfl, rfl, rfl, rfl⟩
